import Mathlib

/-!
Verification development for the Websy `ActorSchemaManager` schema-derivation
engine (`src/ActorSchemaManager.mjs`).

The JavaScript source is shallowly embedded: JS objects used as ordered
string-keyed mappings become insertion-ordered association lists
(`List (String × α)`) with JS assignment semantics (`setKey`: update in place
when the key exists, append otherwise) and first-match lookup (`getKey`,
matching lookup on a duplicate-free JS object).  JS values that may be any
JSON datum become `JValue`.  Absent keys become `Option`; the JS truthiness
of a string (`s || fallback`) is modelled by `strOrElse`, which treats both
an absent key and the empty string as falsy.  String manipulation is done on
character lists so that every definition is kernel-computable.
-/

mutual
/-- A JSON-like value, for `default` / `prefill` / `defaults` payloads. -/
inductive JValue where
  | null
  | bool (b : Bool)
  | num (n : Int)
  | str (s : String)
  | arr (xs : JArray)

/-- A JSON array (spine of `JValue`s). -/
inductive JArray where
  | nil
  | cons (hd : JValue) (tl : JArray)
end

deriving instance DecidableEq for JValue
deriving instance DecidableEq for JArray
deriving instance Repr for JValue
deriving instance Repr for JArray

/-- The empty JSON array value `[]`. -/
def JValue.emptyArr : JValue := .arr .nil

/-- JS string truthiness: `some ""` is falsy, like an absent key. -/
def truthyStr : Option String → Option String
  | some "" => none
  | o => o

/-- JS `o || d` on an optional string: `d` when absent or empty. -/
def strOrElse (o : Option String) (d : String) : String :=
  match truthyStr o with
  | some s => s
  | none => d

/-- JS `String.prototype.split(sep)` restricted to a single-character
separator, on character lists: keeps empty segments, and the empty string
splits to one empty segment. -/
def splitOnChar (c : Char) (l : List Char) : List (List Char) :=
  l.foldr
    (fun x acc =>
      match acc with
      | cur :: rest => if x = c then [] :: cur :: rest else (x :: cur) :: rest
      | [] => [[x]])
    [[]]

/-- Join a list of strings with a separator (JS `Array.prototype.join`). -/
def joinWith (sep : String) : List String → String
  | [] => ""
  | [x] => x
  | x :: y :: xs => x ++ sep ++ joinWith sep (y :: xs)

/-- JS `word.charAt(0).toUpperCase() + word.slice(1).toLowerCase()` (ASCII). -/
def titleCaseWord (w : List Char) : String :=
  match w with
  | [] => ""
  | c :: rest => String.mk (c.toUpper :: rest.map Char.toLower)

/-- `ActorSchemaManager.toTitleCase`: split on underscores, capitalize each
word, join with spaces. -/
def toTitleCase (s : String) : String :=
  joinWith " " ((splitOnChar '_' s.data).map titleCaseWord)

/-- JS `String.prototype.endsWith` on character lists. -/
def endsWithChars (l suffix : List Char) : Bool :=
  suffix.length ≤ l.length && l.drop (l.length - suffix.length) == suffix

/-- JS `s.endsWith(suffix)`. -/
def strEndsWith (s suffix : String) : Bool :=
  endsWithChars s.data suffix.data

/-- A sparse field declaration (§3 of the spec); every attribute optional.
`array` models the boolean shorthand (absent ⇒ falsy ⇒ `false`). -/
structure FieldConfig where
  title : Option String := none
  description : Option String := none
  desc : Option String := none
  type : Option String := none
  format : Option String := none
  array : Bool := false
  editor : Option String := none
  prefill : Option JValue := none
  default : Option JValue := none
  minLength : Option Int := none
  maxLength : Option Int := none
  minimum : Option Int := none
  maximum : Option Int := none
  enum : Option (List JValue) := none
  group : Option String := none
  label : Option String := none
  itemType : Option String := none
  nullable : Option Bool := none
  sectionCaption : Option String := none
deriving DecidableEq, Repr

/-- `ActorSchemaManager.inferType`. -/
def inferType (fc : FieldConfig) : String :=
  match truthyStr fc.type with
  | some t => t
  | none => if fc.array then "array" else "string"

/-- `ActorSchemaManager.inferFormat`. -/
def inferFormat (fieldName : String) (fc : FieldConfig) : String :=
  match truthyStr fc.format with
  | some f => f
  | none =>
    if fc.array then "array"
    else if strEndsWith fieldName "_url" || fieldName = "website" then "link"
    else if strEndsWith fieldName "_links" then "array"
    else "text"

/-- `ActorSchemaManager.inferEditor`: the switch scrutinee is
`fieldConfig.type || 'string'`, the literal `type` attribute with a string
fallback. -/
def inferEditor (fc : FieldConfig) : String :=
  match truthyStr fc.editor with
  | some e => e
  | none =>
    let t := strOrElse fc.type "string"
    if t = "integer" then "number"
    else if t = "number" then "number"
    else if t = "boolean" then "checkbox"
    else if t = "array" then "stringList"
    else "textfield"

/-- The spec's editor table (§4.1): resolved type to editor identifier. -/
def editorForType (t : String) : String :=
  if t = "integer" ∨ t = "number" then "number"
  else if t = "boolean" then "checkbox"
  else if t = "array" then "stringList"
  else "textfield"

/-! ## JS objects as insertion-ordered association lists -/

/-- JS property read `obj[k]`: first (hence, on a real JS object, unique)
binding for `k`. -/
def getKey (l : List (String × α)) (k : String) : Option α :=
  (l.find? (fun p => p.1 = k)).map (fun p => p.2)

/-- JS property write `obj[k] = v`: update in place when `k` is bound,
append otherwise. -/
def setKey (l : List (String × α)) (k : String) (v : α) : List (String × α) :=
  if l.any (fun p => p.1 = k) then
    l.map (fun p => if p.1 = k then (k, v) else p)
  else
    l ++ [(k, v)]

/-! ## The configuration tree (§3) -/

/-- The `actor` section. -/
structure ActorConfig where
  name : Option String := none
  title : Option String := none
  version : Option String := none
  build_tag : Option String := none
deriving DecidableEq, Repr

/-- A view declaration: ordered field-name list, optional title/component. -/
structure ViewConfig where
  title : Option String := none
  component : Option String := none
  fields : Option (List String) := none
deriving DecidableEq, Repr

/-- The `dataset` section: base fields, field groups, views. -/
structure DatasetConfig where
  fields : Option (List (String × FieldConfig)) := none
  field_groups : Option (List (String × List (String × FieldConfig))) := none
  views : Option (List (String × ViewConfig)) := none
deriving DecidableEq, Repr

/-- The `input` section. -/
structure InputConfig where
  fields : Option (List (String × FieldConfig)) := none
  required : Option (List String) := none
  defaults : Option (List (String × JValue)) := none
deriving DecidableEq, Repr

/-- The root configuration mapping (the `schemas` section of the YAML). -/
structure Config where
  actor : Option ActorConfig := none
  input : Option InputConfig := none
  dataset : Option DatasetConfig := none
deriving DecidableEq, Repr

/-- An aggregated dataset field: the declaration plus the `_fromGroup`
provenance marker injected by the aggregator (absent on base fields). -/
structure DatasetField where
  config : FieldConfig
  fromGroup : Option String := none
deriving DecidableEq, Repr

/-- `getAllDatasetFields`: spread of `dataset.fields`, then every group's
fields merged in source declaration order, each tagged with its group. -/
def getAllDatasetFields (c : Config) : List (String × DatasetField) :=
  let dataset := c.dataset.getD {}
  let base := (dataset.fields.getD []).foldl
    (fun acc f => setKey acc f.1 { config := f.2 }) []
  (dataset.field_groups.getD []).foldl
    (fun acc g =>
      g.2.foldl
        (fun acc2 f => setKey acc2 f.1 { config := f.2, fromGroup := some g.1 })
        acc)
    base

/-! ## Generated documents -/

/-- A JSON-Schema `type` entry: a bare type or a union list. -/
inductive SchemaType where
  | single (t : String)
  | union (ts : List String)
deriving DecidableEq, Repr

/-- One property of the generated input schema; `Option` fields model keys
carried through only when explicitly set on the declaration. -/
structure InputFieldSchema where
  title : String
  type : String
  description : String
  editor : String
  sectionCaption : Option String := none
  prefill : Option JValue := none
  default : Option JValue := none
  minLength : Option Int := none
  maxLength : Option Int := none
  minimum : Option Int := none
  maximum : Option Int := none
  enum : Option (List JValue) := none
deriving DecidableEq, Repr

/-- The generated `input_schema.json` (the varying parts). -/
structure InputSchema where
  title : String
  properties : List (String × InputFieldSchema)
  required : List String
deriving DecidableEq, Repr

/-- The per-field property built by `generateInputSchema`'s loop body. -/
def inputFieldSchema (fieldName : String) (fc : FieldConfig) : InputFieldSchema :=
  { title := strOrElse fc.title (toTitleCase fieldName)
    type := strOrElse fc.type "string"
    description := strOrElse fc.description (strOrElse fc.desc "")
    editor := inferEditor fc
    sectionCaption := fc.sectionCaption
    prefill := fc.prefill
    default := fc.default
    minLength := fc.minLength
    maxLength := fc.maxLength
    minimum := fc.minimum
    maximum := fc.maximum
    enum := fc.enum }

/-- `generateInputSchema`. -/
def generateInputSchema (c : Config) : InputSchema :=
  let inputConfig := c.input.getD {}
  let actorConfig := c.actor.getD {}
  { title := strOrElse actorConfig.title
      (toTitleCase (strOrElse actorConfig.name "Actor Input"))
    properties := (inputConfig.fields.getD []).foldl
      (fun acc f => setKey acc f.1 (inputFieldSchema f.1 f.2)) []
    required := inputConfig.required.getD [] }

/-- One field of the generated dataset schema's `fields.properties`. -/
structure DatasetFieldSchema where
  type : SchemaType
  title : String
  description : String
  items : Option String := none
deriving DecidableEq, Repr

/-- A per-field `display.properties` entry of a generated view. -/
structure DisplayProp where
  label : String
  format : String
deriving DecidableEq, Repr

/-- A generated view entry of the dataset schema. -/
structure ViewSchema where
  title : String
  transformationFields : List String
  component : String
  displayProperties : List (String × DisplayProp)
deriving DecidableEq, Repr

/-- The generated `dataset_schema.json` (the varying parts). -/
structure DatasetSchema where
  fieldsProperties : List (String × DatasetFieldSchema)
  views : List (String × ViewSchema)
deriving DecidableEq, Repr

/-- The field schema built by `generateDatasetSchema`'s fields loop body. -/
def datasetFieldSchema (fieldName : String) (df : DatasetField) : DatasetFieldSchema :=
  let fc := df.config
  let fieldType := inferType fc
  { type := if fc.nullable = some false then .single fieldType
            else .union [fieldType, "null"]
    title := strOrElse fc.title (toTitleCase fieldName)
    description := strOrElse fc.description (strOrElse fc.desc "")
    items := if fieldType = "array" then some (strOrElse fc.itemType "string")
             else none }

/-- The view entry built by `generateDatasetSchema`'s views loop body. -/
def generateViewSchema (allFields : List (String × DatasetField))
    (viewName : String) (vc : ViewConfig) : ViewSchema :=
  let viewFields := vc.fields.getD []
  let displayProps := viewFields.foldl
    (fun acc fieldName =>
      match getKey allFields fieldName with
      | none => acc
      | some df =>
        setKey acc fieldName
          { label := strOrElse df.config.label
              (strOrElse df.config.title (toTitleCase fieldName))
            format := inferFormat fieldName df.config })
    []
  { title := strOrElse vc.title (toTitleCase viewName)
    transformationFields := viewFields
    component := strOrElse vc.component "table"
    displayProperties := displayProps }

/-- `generateDatasetSchema`. -/
def generateDatasetSchema (c : Config) : DatasetSchema :=
  let allFields := getAllDatasetFields c
  let views := (c.dataset.getD {}).views.getD []
  { fieldsProperties := allFields.foldl
      (fun acc f => setKey acc f.1 (datasetFieldSchema f.1 f.2)) []
    views := views.foldl
      (fun acc v => setKey acc v.1 (generateViewSchema allFields v.1 v.2)) [] }

/-- `generateDefaultInput`: per-field derivation then `Object.assign` of the
optional `input.defaults` overlay. -/
def generateDefaultInput (c : Config) : List (String × JValue) :=
  let inputConfig := c.input.getD {}
  let defaults := (inputConfig.fields.getD []).foldl
    (fun acc f =>
      let fc := f.2
      match fc.default with
      | some v => setKey acc f.1 v
      | none =>
        match fc.prefill with
        | some v => setKey acc f.1 v
        | none =>
          if fc.type = some "boolean" then setKey acc f.1 (.bool false)
          else if fc.type = some "integer" ∨ fc.type = some "number" then
            setKey acc f.1 (.num 0)
          else if fc.type = some "array" then setKey acc f.1 JValue.emptyArr
          else acc)
    []
  match inputConfig.defaults with
  | some ds => ds.foldl (fun acc d => setKey acc d.1 d.2) defaults
  | none => defaults

/-! ## Validation -/

/-- The result shape of `validate`. -/
structure ValidationResult where
  valid : Bool
  errors : List String
deriving DecidableEq, Repr

/-- An ASCII single quote, kept out of string literals. -/
def apos : String := "\x27"

/-- The error pushed for a falsy config. -/
def emptyConfigMsg : String := "Config is empty or undefined"

/-- The error pushed when `actor.name` is falsy. -/
def actorNameMsg : String := "Missing required field: schemas.actor.name"

/-- The error pushed for a view field missing from the aggregated set. -/
def viewErrMsg (viewName fieldName : String) : String :=
  "View " ++ apos ++ viewName ++ apos ++ " references unknown field " ++
    apos ++ fieldName ++ apos

/-- The error pushed for an input field naming a missing field group. -/
def groupErrMsg (fieldName groupName : String) : String :=
  "Input field " ++ apos ++ fieldName ++ apos ++
    " references unknown field_group " ++ apos ++ groupName ++ apos

/-- `validate`; `none` models a null/undefined config (the only falsy case,
since an object — even an empty one — is truthy in JS). -/
def validate (config : Option Config) : ValidationResult :=
  match config with
  | none => { valid := false, errors := [emptyConfigMsg] }
  | some c =>
    let actorErrors :=
      if (truthyStr (c.actor.bind ActorConfig.name)).isSome then []
      else [actorNameMsg]
    let allFields := getAllDatasetFields c
    let views := (c.dataset.getD {}).views.getD []
    let viewStepErrors := views.foldl
      (fun acc v =>
        (v.2.fields.getD []).foldl
          (fun acc2 fieldName =>
            if (getKey allFields fieldName).isSome then acc2
            else acc2 ++ [viewErrMsg v.1 fieldName])
          acc)
      actorErrors
    let fieldGroups := (c.dataset.getD {}).field_groups.getD []
    let inputFields := (c.input.getD {}).fields.getD []
    let errors := inputFields.foldl
      (fun acc f =>
        match truthyStr f.2.group with
        | some g =>
          if (getKey fieldGroups g).isSome then acc
          else acc ++ [groupErrMsg f.1 g]
        | none => acc)
      viewStepErrors
    { valid := errors.length = 0, errors := errors }

/-- The per-entry write of a fold that builds a JS object: an entry either
writes one key/value pair or leaves the object unchanged. -/
def writeStep (kv : ε → Option (String × α))
    (acc : List (String × α)) (e : ε) : List (String × α) :=
  match kv e with
  | some p => setKey acc p.1 p.2
  | none => acc

/-- The value written at key `n` by the last entry of `es` that writes `n`. -/
def lastWrite (kv : ε → Option (String × α)) (es : List ε) (n : String) :
    Option α :=
  es.reverse.findSome?
    (fun e => (kv e).bind (fun p => if p.1 = n then some p.2 else none))

/-- The binding for `n` written last in declaration order (later entries
shadow earlier ones), as produced by folding JS assignments over `l`. -/
def lastEntry (l : List (String × β)) (n : String) : Option β :=
  (l.reverse.find? (fun p => p.1 = n)).map (fun p => p.2)

/-- The base dataset field declarations (`dataset.fields`), absent ⇒ empty. -/
def baseFields (c : Config) : List (String × FieldConfig) :=
  (c.dataset.getD {}).fields.getD []

/-- Every group field in source declaration order, flattened across groups:
entries `(fieldName, (groupName, declaration))`. -/
def groupEntries (c : Config) : List (String × String × FieldConfig) :=
  ((c.dataset.getD {}).field_groups.getD []).flatMap
    (fun g => g.2.map (fun f => (f.1, (g.1, f.2))))

/-- JS conditional property write: write `o`'s value at `k` when present,
else leave the object unchanged. -/
def optWrite (acc : List (String × α)) (k : String) (o : Option α) :
    List (String × α) :=
  match o with
  | some v => setKey acc k v
  | none => acc

/-- The dangling view references `(viewName, fieldName)` of a config, in the
source order `validate` visits them. -/
def viewDanglingRefs (c : Config) : List (String × String) :=
  ((c.dataset.getD {}).views.getD []).flatMap
    (fun v => (v.2.fields.getD []).flatMap
      (fun fieldName =>
        if (getKey (getAllDatasetFields c) fieldName).isSome then []
        else [(v.1, fieldName)]))

/-- The dangling field-group references `(inputFieldName, groupName)` of a
config, in the source order `validate` visits them. -/
def groupDanglingRefs (c : Config) : List (String × String) :=
  ((c.input.getD {}).fields.getD []).flatMap
    (fun f =>
      match truthyStr f.2.group with
      | some g =>
        if (getKey ((c.dataset.getD {}).field_groups.getD []) g).isSome then []
        else [(f.1, g)]
      | none => [])

/-- The per-field default derived by `generateDefaultInput`: explicit
`default`, else explicit `prefill`, else a zero value keyed on the literal
`type` attribute, else nothing. -/
def derivedDefault (fc : FieldConfig) : Option JValue :=
  match fc.default with
  | some v => some v
  | none =>
    match fc.prefill with
    | some v => some v
    | none =>
      if fc.type = some "boolean" then some (.bool false)
      else if fc.type = some "integer" ∨ fc.type = some "number" then
        some (.num 0)
      else if fc.type = some "array" then some JValue.emptyArr
      else none

/-- A config with one dangling view field `z`, one dangling group `bad`,
and `actor.name` present. -/
def cfgC4 : Config :=
  { actor := some { name := some "demo" },
    input := some { fields := some [("startUrls", { group := some "bad" })] },
    dataset := some
      { fields := some [("price", { type := some "number" })],
        views := some [("overview", { fields := some ["price", "z"] })] } }

/-- A config exercising default precedence and the defaults overlay. -/
def cfgC5 : Config :=
  { input := some
      { fields := some
          [("flag", { type := some "boolean", default := some (.bool true),
                      prefill := some (.bool false) }),
           ("tags", { type := some "array" }),
           ("label0", { type := some "string" })],
        defaults := some [("label0", .str "override")] } }

/-- An input field declared only via the `array: true` shorthand. -/
def cfgC6 : Config :=
  { input := some { fields := some [("tags", { array := true })] } }

/-- A config whose sole view lists one resolvable and one dangling field. -/
def cfgC10 : Config :=
  { dataset := some
      { fields := some [("price", { type := some "number" })],
        views := some [("overview", { fields := some ["price", "z"] })] } }

/-- A dataset section mixing an explicit type and the array shorthand. -/
def cfgC3 : Config :=
  { dataset := some
      { fields := some
          [("price", { type := some "number" }),
           ("tags", { array := true, itemType := some "url" })] } }

/-- The aggregated entry `cfgC3` produces for `tags`. -/
def dfTags : DatasetField := { config := { array := true, itemType := some "url" } }

/-! ## Lookup lemmas for the object model -/

theorem getKey_nil (n : String) : getKey ([] : List (String × α)) n = none := rfl

theorem getKey_cons (p : String × α) (l : List (String × α)) (n : String) :
    getKey (p :: l) n = if p.1 = n then some p.2 else getKey l n := by
  by_cases h : p.1 = n <;> simp [getKey, List.find?_cons, h]

theorem getKey_append (l1 l2 : List (String × α)) (n : String) :
    getKey (l1 ++ l2) n = (getKey l1 n).or (getKey l2 n) := by
  simp only [getKey, List.find?_append]
  cases List.find? (fun p => p.1 = n) l1 <;> simp [Option.or]

theorem getKey_eq_none_of_not_any (l : List (String × α)) (k : String)
    (h : l.any (fun p => p.1 = k) = false) : getKey l k = none := by
  induction l with
  | nil => rfl
  | cons p t ih =>
    simp only [List.any_cons, Bool.or_eq_false_iff] at h
    rw [getKey_cons, if_neg (by simpa using h.1)]
    exact ih h.2

theorem getKey_map_set_ne (l : List (String × α)) (k : String) (v : α)
    (n : String) (hn : k ≠ n) :
    getKey (l.map fun p => if p.1 = k then (k, v) else p) n = getKey l n := by
  induction l with
  | nil => rfl
  | cons p t ih =>
    by_cases hp : p.1 = k
    · rw [List.map_cons, if_pos hp, getKey_cons, getKey_cons, if_neg hn,
        if_neg (hp ▸ hn), ih]
    · rw [List.map_cons, if_neg hp, getKey_cons, getKey_cons, ih]

theorem getKey_map_set_self (l : List (String × α)) (k : String) (v : α)
    (h : l.any (fun p => p.1 = k) = true) :
    getKey (l.map fun p => if p.1 = k then (k, v) else p) k = some v := by
  induction l with
  | nil => simp at h
  | cons p t ih =>
    by_cases hp : p.1 = k
    · rw [List.map_cons, if_pos hp, getKey_cons, if_pos rfl]
    · simp only [List.any_cons, hp, decide_False, Bool.false_or] at h
      rw [List.map_cons, if_neg hp, getKey_cons, if_neg hp]
      exact ih h

theorem getKey_setKey (l : List (String × α)) (k : String) (v : α) (n : String) :
    getKey (setKey l k v) n = if k = n then some v else getKey l n := by
  unfold setKey
  by_cases hany : l.any (fun p => p.1 = k)
  · rw [if_pos hany]
    by_cases hn : k = n
    · subst hn; rw [if_pos rfl, getKey_map_set_self l k v hany]
    · rw [if_neg hn, getKey_map_set_ne l k v n hn]
  · rw [if_neg hany, getKey_append, getKey_cons, getKey_nil]
    have hnone : l.any (fun p => p.1 = k) = false := by
      simp only [Bool.not_eq_true] at hany; exact hany
    by_cases hn : k = n
    · subst hn
      simp [getKey_eq_none_of_not_any l k hnone, Option.or]
    · simp [hn, Option.or_none]

theorem getKey_writeStep (kv : ε → Option (String × α))
    (acc : List (String × α)) (e : ε) (n : String) :
    getKey (writeStep kv acc e) n =
      ((kv e).bind (fun p => if p.1 = n then some p.2 else none)).or
        (getKey acc n) := by
  unfold writeStep
  cases hkv : kv e with
  | none => simp [Option.or]
  | some p =>
    simp only [Option.bind_some]
    rw [getKey_setKey]
    by_cases h : p.1 = n <;> simp [h, Option.or]

/-- Pointwise characterization of a JS-object-building fold: lookup after the
fold is the last write among the folded entries, else the lookup before. -/
theorem getKey_foldl (step : List (String × α) → ε → List (String × α))
    (kv : ε → Option (String × α))
    (hstep : ∀ acc e, step acc e = writeStep kv acc e) :
    ∀ (es : List ε) (acc : List (String × α)) (n : String),
    getKey (es.foldl step acc) n = (lastWrite kv es n).or (getKey acc n) := by
  intro es
  induction es with
  | nil => intro acc n; simp [lastWrite, Option.or]
  | cons e t ih =>
    intro acc n
    rw [List.foldl_cons, ih, hstep]
    simp only [lastWrite, List.reverse_cons, List.findSome?_append]
    cases List.findSome?
        (fun e => (kv e).bind (fun p => if p.1 = n then some p.2 else none))
        t.reverse with
    | some v => simp [Option.or]
    | none =>
      simp only [Option.or]
      rw [getKey_writeStep]
      simp [List.findSome?]
      cases (kv e).bind (fun p => if p.1 = n then some p.2 else none) <;>
        simp [Option.or]

theorem findSome?_guard (l : List ε) (h : ε → String) (v : ε → α) (n : String) :
    l.findSome? (fun e => if h e = n then some (v e) else none)
      = (l.find? (fun e => h e = n)).map v := by
  induction l with
  | nil => rfl
  | cons e t ih =>
    by_cases he : h e = n <;>
      simp [List.findSome?_cons, List.find?_cons, he, ih]

theorem lastWrite_total (w : β → α) (es : List (String × β)) (n : String) :
    lastWrite (fun e => some (e.1, w e.2)) es n = (lastEntry es n).map w := by
  show es.reverse.findSome? (fun e => if e.1 = n then some (w e.2) else none) = _
  rw [findSome?_guard es.reverse (fun e => e.1) (fun e => w e.2) n]
  unfold lastEntry
  rw [Option.map_map]
  rfl

theorem foldl_inner (inner : γ → List ε) (step : β → ε → β) :
    ∀ (gs : List γ) (acc : β),
    gs.foldl (fun a g => (inner g).foldl step a) acc
      = (gs.flatMap inner).foldl step acc := by
  intro gs
  induction gs with
  | nil => intro acc; rfl
  | cons g t ih =>
    intro acc
    rw [List.foldl_cons, List.flatMap_cons, List.foldl_append, ih]

theorem getAllDatasetFields_lookup (c : Config) (n : String) :
    getKey (getAllDatasetFields c) n =
      ((lastEntry (groupEntries c) n).map
        (fun gv => ({ config := gv.2, fromGroup := some gv.1 } : DatasetField))).or
      ((lastEntry (baseFields c) n).map
        (fun fc => ({ config := fc, fromGroup := none } : DatasetField))) := by
  have hbase :
      getKey ((baseFields c).foldl
          (fun acc f => setKey acc f.1 ({ config := f.2 } : DatasetField)) []) n
        = (lastEntry (baseFields c) n).map
            (fun fc => ({ config := fc, fromGroup := none } : DatasetField)) := by
    rw [getKey_foldl
          (fun (acc : List (String × DatasetField)) (f : String × FieldConfig) =>
            setKey acc f.1 ({ config := f.2 } : DatasetField))
          (fun f => some (f.1, ({ config := f.2 } : DatasetField)))
          (fun acc e => rfl),
        lastWrite_total (fun fc => ({ config := fc } : DatasetField)),
        getKey_nil, Option.or_none]
  show getKey
      (((c.dataset.getD {}).field_groups.getD []).foldl
        (fun acc g => g.2.foldl
          (fun acc2 f =>
            setKey acc2 f.1 { config := f.2, fromGroup := some g.1 }) acc)
        ((baseFields c).foldl
          (fun acc f => setKey acc f.1 ({ config := f.2 } : DatasetField)) []))
      n = _
  have hstep :
      (fun (acc : List (String × DatasetField))
           (g : String × List (String × FieldConfig)) =>
        g.2.foldl
          (fun acc2 f =>
            setKey acc2 f.1 { config := f.2, fromGroup := some g.1 }) acc)
      = (fun acc g =>
          (g.2.map (fun f => (f.1, (g.1, f.2)))).foldl
            (fun acc2 e =>
              setKey acc2 e.1 { config := e.2.2, fromGroup := some e.2.1 })
            acc) := by
    funext acc g
    rw [List.foldl_map]
  rw [hstep, foldl_inner, getKey_foldl
        (fun (acc2 : List (String × DatasetField))
             (e : String × String × FieldConfig) =>
          setKey acc2 e.1 { config := e.2.2, fromGroup := some e.2.1 })
        (fun (e : String × String × FieldConfig) =>
          some (e.1, ({ config := e.2.2, fromGroup := some e.2.1 } : DatasetField)))
        (fun acc e => rfl),
      lastWrite_total
        (fun (gv : String × FieldConfig) =>
          ({ config := gv.2, fromGroup := some gv.1 } : DatasetField)),
      hbase]
  rfl

theorem findSome?_rev_of_nodup (l : List (String × β)) (g : String → β → Option α)
    (h : (l.map Prod.fst).Nodup) (n : String) :
    l.reverse.findSome? (fun e => if e.1 = n then g e.1 e.2 else none)
      = (getKey l n).bind (g n) := by
  induction l with
  | nil => rfl
  | cons p t ih =>
    rw [List.map_cons, List.nodup_cons] at h
    obtain ⟨hp, ht⟩ := h
    rw [List.reverse_cons, List.findSome?_append, ih ht, getKey_cons]
    by_cases hn : p.1 = n
    · have htn : getKey t n = none := by
        apply getKey_eq_none_of_not_any
        rw [List.any_eq_false]
        intro x hx
        simp only [decide_eq_true_eq]
        intro hxn
        exact hp (hn ▸ hxn ▸ List.mem_map_of_mem Prod.fst hx)
      subst hn
      rw [htn]
      cases hg : g p.1 p.2 <;> simp [List.findSome?, hg, Option.or]
    · simp [List.findSome?, hn, Option.or_none]

theorem lastEntry_eq_getKey (l : List (String × β))
    (h : (l.map Prod.fst).Nodup) (n : String) :
    lastEntry l n = getKey l n := by
  unfold lastEntry
  rw [← findSome?_guard l.reverse (fun e => e.1) (fun e => e.2) n,
    findSome?_rev_of_nodup l (fun _ b => some b) h n]
  cases getKey l n <;> rfl

/-- Lookup in a JS object built by writing `f key value` for every entry of a
duplicate-free source mapping. -/
theorem getKey_buildFold (f : String → β → α) (l : List (String × β))
    (h : (l.map Prod.fst).Nodup) (n : String) :
    getKey (l.foldl (fun acc e => setKey acc e.1 (f e.1 e.2)) []) n
      = (getKey l n).map (f n) := by
  rw [getKey_foldl
      (fun (acc : List (String × α)) (e : String × β) =>
        setKey acc e.1 (f e.1 e.2))
      (fun e => some (e.1, f e.1 e.2)) (fun acc e => rfl),
    getKey_nil, Option.or_none]
  show l.reverse.findSome? (fun e => if e.1 = n then some (f e.1 e.2) else none)
    = (getKey l n).map (f n)
  rw [findSome?_rev_of_nodup l (fun a b => some (f a b)) h n]
  cases getKey l n <;> rfl

theorem lastWrite_opt (f : String → β → Option α) (l : List (String × β))
    (n : String) :
    lastWrite (fun e => (f e.1 e.2).map (fun v => (e.1, v))) l n
      = l.reverse.findSome? (fun e => if e.1 = n then f e.1 e.2 else none) := by
  unfold lastWrite
  congr 1
  funext e
  by_cases he : e.1 = n
  · subst he
    cases hfe : f e.1 e.2 <;> simp [hfe]
  · cases hfe : f e.1 e.2 <;> simp [hfe, he]

/-- Lookup in a JS object built by conditionally writing `f key value` for
every entry of a duplicate-free source mapping (entries with `f _ _ = none`
write nothing). -/
theorem getKey_buildFoldOpt (f : String → β → Option α) (l : List (String × β))
    (h : (l.map Prod.fst).Nodup) (n : String) :
    getKey (l.foldl (fun acc e => optWrite acc e.1 (f e.1 e.2)) []) n
      = (getKey l n).bind (f n) := by
  rw [getKey_foldl
      (fun (acc : List (String × α)) (e : String × β) =>
        optWrite acc e.1 (f e.1 e.2))
      (fun e => (f e.1 e.2).map (fun v => (e.1, v)))
      (by
        intro acc e
        unfold writeStep optWrite
        cases hfe : f e.1 e.2 <;> simp [hfe]),
    getKey_nil, Option.or_none, lastWrite_opt, findSome?_rev_of_nodup l f h n]

theorem setKey_keys (l : List (String × α)) (k : String) (v : α) :
    (setKey l k v).map Prod.fst =
      if l.any (fun p => p.1 = k) then l.map Prod.fst
      else l.map Prod.fst ++ [k] := by
  unfold setKey
  split
  · rw [List.map_map]
    apply List.map_congr_left
    intro p _
    by_cases hp : p.1 = k <;> simp [hp]
  · simp

theorem setKey_keys_nodup (l : List (String × α)) (k : String) (v : α)
    (h : (l.map Prod.fst).Nodup) : ((setKey l k v).map Prod.fst).Nodup := by
  rw [setKey_keys]
  split
  · exact h
  · rename_i hany
    rw [Bool.not_eq_true, List.any_eq_false] at hany
    refine List.Nodup.append h (List.nodup_singleton k) ?_
    intro a ha hb
    rw [List.mem_singleton] at hb
    subst hb
    obtain ⟨p, hpl, hpa⟩ := List.mem_map.mp ha
    exact absurd hpa (by simpa using hany p hpl)

theorem foldl_write_keys_nodup (step : List (String × α) → ε → List (String × α))
    (kv : ε → Option (String × α))
    (hstep : ∀ acc e, step acc e = writeStep kv acc e) :
    ∀ (es : List ε) (acc : List (String × α)),
    (acc.map Prod.fst).Nodup → ((es.foldl step acc).map Prod.fst).Nodup := by
  intro es
  induction es with
  | nil => intro acc h; exact h
  | cons e t ih =>
    intro acc h
    rw [List.foldl_cons]
    apply ih
    rw [hstep]
    unfold writeStep
    cases kv e with
    | none => exact h
    | some p => exact setKey_keys_nodup acc p.1 p.2 h

theorem getAllDatasetFields_as_foldl (c : Config) :
    getAllDatasetFields c
      = (groupEntries c).foldl
          (fun acc e => setKey acc e.1 { config := e.2.2, fromGroup := some e.2.1 })
          ((baseFields c).foldl
            (fun acc f => setKey acc f.1 ({ config := f.2 } : DatasetField)) []) := by
  show (((c.dataset.getD {}).field_groups.getD []).foldl
      (fun acc g => g.2.foldl
        (fun acc2 f =>
          setKey acc2 f.1 { config := f.2, fromGroup := some g.1 }) acc)
      ((baseFields c).foldl
        (fun acc f => setKey acc f.1 ({ config := f.2 } : DatasetField)) [])) = _
  have hstep :
      (fun (acc : List (String × DatasetField))
           (g : String × List (String × FieldConfig)) =>
        g.2.foldl
          (fun acc2 f =>
            setKey acc2 f.1 { config := f.2, fromGroup := some g.1 }) acc)
      = (fun acc g =>
          (g.2.map (fun f => (f.1, (g.1, f.2)))).foldl
            (fun acc2 e =>
              setKey acc2 e.1 { config := e.2.2, fromGroup := some e.2.1 })
            acc) := by
    funext acc g
    rw [List.foldl_map]
  rw [hstep, foldl_inner]
  rfl

theorem allFields_keys_nodup (c : Config) :
    ((getAllDatasetFields c).map Prod.fst).Nodup := by
  rw [getAllDatasetFields_as_foldl]
  refine foldl_write_keys_nodup _
    (fun (e : String × String × FieldConfig) =>
      some (e.1, ({ config := e.2.2, fromGroup := some e.2.1 } : DatasetField)))
    (fun acc e => rfl) _ _ ?_
  refine foldl_write_keys_nodup _
    (fun (f : String × FieldConfig) =>
      some (f.1, ({ config := f.2 } : DatasetField)))
    (fun acc e => rfl) _ _ ?_
  simp

/-! ## The claims -/

/-- C1 counterexample: the declaration `{array: true}` (no `type`, no
`editor`) resolves to type `"array"`, whose claimed editor is
`"stringList"`, yet `inferEditor` returns `"textfield"`: `inferEditor` does
not consult the resolved type. -/
theorem spec_C1_counterexample :
    inferType { array := true } = "array" ∧
    editorForType "array" = "stringList" ∧
    inferEditor { array := true } = "textfield" ∧
    inferEditor { array := true }
      ≠ editorForType (inferType ({ array := true } : FieldConfig)) := by
  decide

/-- C1 (amended): for every field declaration with no explicit `editor` key,
`inferEditor` returns the editor mapped from the declaration's literal
`type` attribute with fallback `"string"` — not from the type `inferType`
resolves — so the `array: true` shorthand is ignored and such declarations
get `"textfield"`. -/
theorem spec_C1_inferEditor_amended (fc : FieldConfig) (h : fc.editor = none) :
    inferEditor fc = editorForType (strOrElse fc.type "string") := by
  have he : truthyStr fc.editor = none := by rw [h]; rfl
  simp only [inferEditor, he, editorForType]
  by_cases h1 : strOrElse fc.type "string" = "integer"
  · simp [h1]
  · by_cases h2 : strOrElse fc.type "string" = "number"
    · simp [h1, h2]
    · by_cases h3 : strOrElse fc.type "string" = "boolean"
      · simp [h1, h2, h3]
      · by_cases h4 : strOrElse fc.type "string" = "array"
        · simp [h1, h2, h3, h4]
        · simp [h1, h2, h3, h4]

theorem spec_C1_amended_witness :
    ({ array := true } : FieldConfig).editor = none ∧
    inferEditor { array := true }
      = editorForType (strOrElse ({ array := true } : FieldConfig).type "string") :=
  ⟨rfl, spec_C1_inferEditor_amended { array := true } rfl⟩

/-- C2: the aggregated field set resolves every name to the last group
entry declaring it (in source declaration order, tagged with that group's
name), else to the last base `dataset.fields` entry (carrying no group tag),
else to nothing: group fields merged after base fields win collisions, and
later groups shadow earlier ones. -/
theorem spec_C2_field_aggregation (c : Config) (n : String) :
    getKey (getAllDatasetFields c) n =
      ((lastEntry (groupEntries c) n).map
        (fun gv => ({ config := gv.2, fromGroup := some gv.1 } : DatasetField))).or
      ((lastEntry (baseFields c) n).map
        (fun fc => ({ config := fc, fromGroup := none } : DatasetField))) :=
  getAllDatasetFields_lookup c n

/-- C3: every aggregated field appears in the generated dataset schema with
its resolved type wrapped as `[type, "null"]` unless `nullable: false`, and
array-typed fields carry `items.type` from `itemType` with fallback
`"string"`. -/
theorem spec_C3_dataset_field_types (c : Config) (n : String)
    (df : DatasetField) (h : getKey (getAllDatasetFields c) n = some df) :
    ∃ fs, getKey (generateDatasetSchema c).fieldsProperties n = some fs ∧
      fs.type = (if df.config.nullable = some false
        then SchemaType.single (inferType df.config)
        else SchemaType.union [inferType df.config, "null"]) ∧
      fs.items = (if inferType df.config = "array"
        then some (strOrElse df.config.itemType "string") else none) := by
  refine ⟨datasetFieldSchema n df, ?_, rfl, rfl⟩
  show getKey ((getAllDatasetFields c).foldl
      (fun acc e => setKey acc e.1 (datasetFieldSchema e.1 e.2)) []) n
    = some (datasetFieldSchema n df)
  rw [getKey_buildFold datasetFieldSchema (getAllDatasetFields c)
      (allFields_keys_nodup c) n, h]
  rfl

/-- C7 counterexample: for the empty mapping config, `validate` does return
exactly one error, but that error is the missing `actor.name` error — the
claim that no actor.name error appears is false. -/
theorem spec_C7_counterexample :
    (validate (some {})).errors.length = 1 ∧
    actorNameMsg ∈ (validate (some {})).errors := by
  decide

/-- C7 (amended): the immediate single-error return fires only for a
null/undefined config; an empty mapping config is truthy, so `validate`
proceeds to the regular checks and returns exactly one error, the missing
`actor.name` error (the reference checks are vacuous). -/
theorem spec_C7_validate_empty_amended :
    validate none = { valid := false, errors := [emptyConfigMsg] } ∧
    validate (some {}) = { valid := false, errors := [actorNameMsg] } := by
  decide

/-- C8 counterexample: with `actor.title` and `actor.name` both absent, the
generated input schema's title is `"Actor input"` (the fallback string is
passed through `toTitleCase`, which lowercases the tail), not the literal
`"Actor Input"`. -/
theorem spec_C8_counterexample :
    (generateInputSchema {}).title = "Actor input" ∧
    "Actor input" ≠ "Actor Input" := by
  decide

/-- C8 (amended): when `actor.title` is absent the generated input schema's
title is the title-casing of `actor.name` with fallback to the string
`"Actor Input"` — so with both absent it is `toTitleCase "Actor Input" =
"Actor input"`, and with a name present it is the title-cased name. -/
theorem spec_C8_input_title_amended (c : Config)
    (h : (c.actor.getD {}).title = none) :
    (generateInputSchema c).title
        = toTitleCase (strOrElse (c.actor.getD {}).name "Actor Input") ∧
      toTitleCase "Actor Input" = "Actor input" := by
  refine ⟨?_, by decide⟩
  show strOrElse (c.actor.getD {}).title
      (toTitleCase (strOrElse (c.actor.getD {}).name "Actor Input")) = _
  rw [h]
  rfl

theorem spec_C8_amended_witness :
    (({} : Config).actor.getD {}).title = none ∧
    ((generateInputSchema {}).title
        = toTitleCase (strOrElse (({} : Config).actor.getD {}).name "Actor Input") ∧
      toTitleCase "Actor Input" = "Actor input") :=
  ⟨rfl, spec_C8_input_title_amended {} rfl⟩

theorem validate_valid_iff (oc : Option Config) :
    (validate oc).valid = true ↔ (validate oc).errors = [] := by
  cases oc with
  | none => simp [validate, emptyConfigMsg]
  | some c => simp [validate, List.length_eq_zero]

/-- C9: `validate` always returns `valid` true exactly when its error list
is empty, so callers may test either interchangeably. -/
theorem spec_C9_valid_iff_no_errors (oc : Option Config) :
    (validate oc).valid = true ↔ (validate oc).errors = [] :=
  validate_valid_iff oc

/-! ## Error-accumulation characterization of `validate` -/

theorem foldl_emit (step : List String → ε → List String)
    (emit : ε → List String)
    (hstep : ∀ acc e, step acc e = acc ++ emit e) :
    ∀ (xs : List ε) (acc : List String),
    xs.foldl step acc = acc ++ xs.flatMap emit := by
  intro xs
  induction xs with
  | nil => intro acc; simp
  | cons e t ih =>
    intro acc
    rw [List.foldl_cons, ih, hstep, List.flatMap_cons, List.append_assoc]

theorem viewFlat_eq (c : Config) :
    ((c.dataset.getD {}).views.getD []).flatMap
      (fun v => (v.2.fields.getD []).flatMap
        (fun fieldName =>
          if (getKey (getAllDatasetFields c) fieldName).isSome then []
          else [viewErrMsg v.1 fieldName]))
    = (viewDanglingRefs c).map (fun p => viewErrMsg p.1 p.2) := by
  unfold viewDanglingRefs
  rw [List.map_flatMap]
  congr 1
  funext v
  rw [List.map_flatMap]
  congr 1
  funext fieldName
  by_cases hr : (getKey (getAllDatasetFields c) fieldName).isSome <;> simp [hr]

theorem groupFlat_eq (c : Config) :
    ((c.input.getD {}).fields.getD []).flatMap
      (fun f =>
        match truthyStr f.2.group with
        | some g =>
          if (getKey ((c.dataset.getD {}).field_groups.getD []) g).isSome
            then []
            else [groupErrMsg f.1 g]
        | none => [])
    = (groupDanglingRefs c).map (fun p => groupErrMsg p.1 p.2) := by
  unfold groupDanglingRefs
  rw [List.map_flatMap]
  congr 1
  funext f
  rcases hgv : truthyStr f.2.group with _ | g
  · simp
  · by_cases hg :
        (getKey ((c.dataset.getD {}).field_groups.getD []) g).isSome <;>
      simp [hg]

theorem validate_errors_eq (c : Config) :
    (validate (some c)).errors =
      (if (truthyStr (c.actor.bind ActorConfig.name)).isSome then []
        else [actorNameMsg])
      ++ (viewDanglingRefs c).map (fun p => viewErrMsg p.1 p.2)
      ++ (groupDanglingRefs c).map (fun p => groupErrMsg p.1 p.2) := by
  show (((c.input.getD {}).fields.getD []).foldl
      (fun acc f =>
        match truthyStr f.2.group with
        | some g =>
          if (getKey ((c.dataset.getD {}).field_groups.getD []) g).isSome
            then acc
            else acc ++ [groupErrMsg f.1 g]
        | none => acc)
      (((c.dataset.getD {}).views.getD []).foldl
        (fun acc v =>
          (v.2.fields.getD []).foldl
            (fun acc2 fieldName =>
              if (getKey (getAllDatasetFields c) fieldName).isSome then acc2
              else acc2 ++ [viewErrMsg v.1 fieldName])
            acc)
        (if (truthyStr (c.actor.bind ActorConfig.name)).isSome then []
          else [actorNameMsg])))
    = _
  rw [foldl_emit _
      (fun (f : String × FieldConfig) =>
        match truthyStr f.2.group with
        | some g =>
          if (getKey ((c.dataset.getD {}).field_groups.getD []) g).isSome
            then []
            else [groupErrMsg f.1 g]
        | none => [])
      (by
        intro acc f
        rcases hgv : truthyStr f.2.group with _ | g
        · simp [hgv]
        · by_cases hg :
              (getKey ((c.dataset.getD {}).field_groups.getD []) g).isSome <;>
            simp [hgv, hg])]
  rw [foldl_emit _
      (fun (v : String × ViewConfig) =>
        (v.2.fields.getD []).flatMap
          (fun fieldName =>
            if (getKey (getAllDatasetFields c) fieldName).isSome then []
            else [viewErrMsg v.1 fieldName]))
      (by
        intro acc v
        rw [foldl_emit _
            (fun fieldName =>
              if (getKey (getAllDatasetFields c) fieldName).isSome then []
              else [viewErrMsg v.1 fieldName])
            (by
              intro acc2 fieldName
              by_cases hr : (getKey (getAllDatasetFields c) fieldName).isSome <;>
                simp [hr])])]
  rw [viewFlat_eq, groupFlat_eq]

/-- C4: a config with exactly one dangling view reference and exactly one
dangling group reference validates to `valid = false` with exactly those two
errors (each naming the offending view/field or field/group), plus the
missing-`actor.name` error exactly when `actor.name` is also absent. -/
theorem spec_C4_validator_completeness (c : Config) (v f fn g : String)
    (hv : viewDanglingRefs c = [(v, f)])
    (hg : groupDanglingRefs c = [(fn, g)]) :
    (validate (some c)).valid = false ∧
    (validate (some c)).errors =
      (if (truthyStr (c.actor.bind ActorConfig.name)).isSome
        then [viewErrMsg v f, groupErrMsg fn g]
        else [actorNameMsg, viewErrMsg v f, groupErrMsg fn g]) := by
  have herr : (validate (some c)).errors =
      (if (truthyStr (c.actor.bind ActorConfig.name)).isSome
        then [viewErrMsg v f, groupErrMsg fn g]
        else [actorNameMsg, viewErrMsg v f, groupErrMsg fn g]) := by
    rw [validate_errors_eq, hv, hg]
    split <;> simp
  refine ⟨?_, herr⟩
  rw [Bool.eq_false_iff]
  intro hvalid
  have hempty := (validate_valid_iff (some c)).mp hvalid
  rw [herr] at hempty
  revert hempty
  split <;> simp

theorem spec_C4_witness :
    viewDanglingRefs cfgC4 = [("overview", "z")] ∧
    groupDanglingRefs cfgC4 = [("startUrls", "bad")] ∧
    ((validate (some cfgC4)).valid = false ∧
      (validate (some cfgC4)).errors =
        (if (truthyStr (cfgC4.actor.bind ActorConfig.name)).isSome
          then [viewErrMsg "overview" "z", groupErrMsg "startUrls" "bad"]
          else [actorNameMsg, viewErrMsg "overview" "z",
            groupErrMsg "startUrls" "bad"])) :=
  ⟨by decide, by decide,
    spec_C4_validator_completeness cfgC4 "overview" "z" "startUrls" "bad"
      (by decide) (by decide)⟩

/-! ## Default-value derivation -/

theorem defaultInput_body_eq :
    (fun (acc : List (String × JValue)) (f : String × FieldConfig) =>
      match f.2.default with
      | some v => setKey acc f.1 v
      | none =>
        match f.2.prefill with
        | some v => setKey acc f.1 v
        | none =>
          if f.2.type = some "boolean" then setKey acc f.1 (.bool false)
          else if f.2.type = some "integer" ∨ f.2.type = some "number" then
            setKey acc f.1 (.num 0)
          else if f.2.type = some "array" then setKey acc f.1 JValue.emptyArr
          else acc)
    = (fun acc f => optWrite acc f.1 (derivedDefault f.2)) := by
  funext acc f
  unfold derivedDefault optWrite
  rcases hd0 : f.2.default with _ | v
  · rcases hp0 : f.2.prefill with _ | v
    · simp only [hd0, hp0]
      split_ifs <;> rfl
    · simp [hd0, hp0]
  · simp [hd0]

theorem getKey_defaultsFold (l : List (String × FieldConfig))
    (h : (l.map Prod.fst).Nodup) (n : String) :
    getKey (l.foldl (fun acc f => optWrite acc f.1 (derivedDefault f.2)) []) n
      = (getKey l n).bind derivedDefault :=
  getKey_buildFoldOpt (fun _ fc => derivedDefault fc) l h n

theorem generateDefaultInput_lookup (c : Config)
    (hf : (((c.input.getD {}).fields.getD []).map Prod.fst).Nodup)
    (hd : (((c.input.getD {}).defaults.getD []).map Prod.fst).Nodup)
    (n : String) :
    getKey (generateDefaultInput c) n =
      (getKey ((c.input.getD {}).defaults.getD []) n).or
        ((getKey ((c.input.getD {}).fields.getD []) n).bind derivedDefault) := by
  rcases hds : (c.input.getD {}).defaults with _ | ds
  · simp only [generateDefaultInput, hds, Option.getD_none]
    rw [defaultInput_body_eq, getKey_defaultsFold _ hf n]
    rfl
  · rw [hds, Option.getD_some] at hd
    simp only [generateDefaultInput, hds, Option.getD_some]
    rw [getKey_foldl
        (fun (acc : List (String × JValue)) (d : String × JValue) =>
          setKey acc d.1 d.2)
        (fun d => some (d.1, d.2)) (fun acc e => rfl),
      lastWrite_total (fun (v : JValue) => v),
      lastEntry_eq_getKey ds hd n,
      defaultInput_body_eq, getKey_defaultsFold _ hf n]
    cases getKey ds n <;> rfl

/-- C5: the derived default for every input field follows the precedence
explicit `default`, else `prefill`, else a type-keyed zero value
(`boolean → false`, `integer|number → 0`, `array → []`), else no entry; the
optional `input.defaults` overlay then wins over any derived value. -/
theorem spec_C5_default_precedence (c : Config)
    (hf : (((c.input.getD {}).fields.getD []).map Prod.fst).Nodup)
    (hd : (((c.input.getD {}).defaults.getD []).map Prod.fst).Nodup)
    (n : String) :
    getKey (generateDefaultInput c) n =
      (getKey ((c.input.getD {}).defaults.getD []) n).or
        ((getKey ((c.input.getD {}).fields.getD []) n).bind derivedDefault) :=
  generateDefaultInput_lookup c hf hd n

theorem spec_C5_witness :
    ((((cfgC5.input.getD {}).fields.getD []).map Prod.fst).Nodup ∧
      (((cfgC5.input.getD {}).defaults.getD []).map Prod.fst).Nodup) ∧
    getKey (generateDefaultInput cfgC5) "flag" =
      (getKey ((cfgC5.input.getD {}).defaults.getD []) "flag").or
        ((getKey ((cfgC5.input.getD {}).fields.getD []) "flag").bind
          derivedDefault) :=
  ⟨⟨by decide, by decide⟩,
    spec_C5_default_precedence cfgC5 (by decide) (by decide) "flag"⟩

/-- C6 counterexample: the declaration `{array: true}` resolves (per
`inferType`) to type `"array"`, yet `generateDefaultInput` synthesizes no
entry for it — the deriver does not reuse `inferType`, contradicting the
claimed empty-sequence default. -/
theorem spec_C6_counterexample :
    inferType { array := true } = "array" ∧
    getKey (generateDefaultInput cfgC6) "tags" = none := by
  decide

/-- C6 (amended): the Default-Value Deriver branches on the declaration's
literal `type` attribute, not on the type `inferType` resolves; a
declaration using the `array: true` shorthand with no explicit `type`,
`default` or `prefill` (and no overlay entry) resolves to type `"array"`
but contributes no entry to the defaults mapping. -/
theorem spec_C6_default_literal_type (c : Config) (n : String)
    (fc : FieldConfig)
    (hf : (((c.input.getD {}).fields.getD []).map Prod.fst).Nodup)
    (hd : (((c.input.getD {}).defaults.getD []).map Prod.fst).Nodup)
    (hfind : getKey ((c.input.getD {}).fields.getD []) n = some fc)
    (hdov : getKey ((c.input.getD {}).defaults.getD []) n = none)
    (hdef : fc.default = none) (hpre : fc.prefill = none)
    (htype : fc.type = none) (harr : fc.array = true) :
    inferType fc = "array" ∧ getKey (generateDefaultInput c) n = none := by
  constructor
  · simp [inferType, truthyStr, htype, harr]
  · rw [generateDefaultInput_lookup c hf hd n, hfind, hdov]
    simp [derivedDefault, hdef, hpre, htype, Option.or]

theorem spec_C6_amended_witness :
    ((((cfgC6.input.getD {}).fields.getD []).map Prod.fst).Nodup ∧
      (((cfgC6.input.getD {}).defaults.getD []).map Prod.fst).Nodup ∧
      getKey ((cfgC6.input.getD {}).fields.getD []) "tags"
        = some { array := true } ∧
      getKey ((cfgC6.input.getD {}).defaults.getD []) "tags" = none) ∧
    (inferType { array := true } = "array" ∧
      getKey (generateDefaultInput cfgC6) "tags" = none) :=
  ⟨⟨by decide, by decide, by decide, by decide⟩,
    spec_C6_default_literal_type cfgC6 "tags" { array := true }
      (by decide) (by decide) (by decide) (by decide)
      (by decide) (by decide) (by decide) (by decide)⟩

/-! ## Views of the dataset schema -/

theorem getKey_displayProps (allFields : List (String × DatasetField))
    (vn : String) (vc : ViewConfig) (fname : String)
    (hdang : getKey allFields fname = none) :
    getKey (generateViewSchema allFields vn vc).displayProperties fname
      = none := by
  show getKey ((vc.fields.getD []).foldl
      (fun acc fieldName =>
        match getKey allFields fieldName with
        | none => acc
        | some df =>
          setKey acc fieldName
            ({ label := strOrElse df.config.label
                (strOrElse df.config.title (toTitleCase fieldName))
               format := inferFormat fieldName df.config } : DisplayProp))
      []) fname = none
  rw [getKey_foldl
      (fun (acc : List (String × DisplayProp)) (fieldName : String) =>
        match getKey allFields fieldName with
        | none => acc
        | some df =>
          setKey acc fieldName
            ({ label := strOrElse df.config.label
                (strOrElse df.config.title (toTitleCase fieldName))
               format := inferFormat fieldName df.config } : DisplayProp))
      (fun fieldName => (getKey allFields fieldName).map
        (fun df =>
          (fieldName,
            ({ label := strOrElse df.config.label
                (strOrElse df.config.title (toTitleCase fieldName))
               format := inferFormat fieldName df.config } : DisplayProp))))
      (by
        intro acc fieldName
        unfold writeStep
        cases hk : getKey allFields fieldName <;> simp [hk]),
    getKey_nil, Option.or_none]
  unfold lastWrite
  rw [List.findSome?_eq_none_iff]
  intro e _
  by_cases heq : e = fname
  · subst heq
    simp [hdang]
  · cases hk : getKey allFields e <;> simp [hk, heq]

/-- C10: every declared view appears in the generated dataset schema with
its `transformation.fields` list equal to the declared field list verbatim
(dangling names included), while a dangling name resolves to no entry of the
view's `display.properties`. -/
theorem spec_C10_view_fields_verbatim (c : Config) (vn : String)
    (vc : ViewConfig)
    (hnodup : (((c.dataset.getD {}).views.getD []).map Prod.fst).Nodup)
    (hvc : getKey ((c.dataset.getD {}).views.getD []) vn = some vc) :
    ∃ vs, getKey (generateDatasetSchema c).views vn = some vs ∧
      vs.transformationFields = vc.fields.getD [] ∧
      ∀ fname, fname ∈ vc.fields.getD [] →
        getKey (getAllDatasetFields c) fname = none →
        getKey vs.displayProperties fname = none := by
  refine ⟨generateViewSchema (getAllDatasetFields c) vn vc, ?_, rfl, ?_⟩
  · show getKey (((c.dataset.getD {}).views.getD []).foldl
        (fun acc v =>
          setKey acc v.1 (generateViewSchema (getAllDatasetFields c) v.1 v.2))
        []) vn
      = some (generateViewSchema (getAllDatasetFields c) vn vc)
    rw [getKey_buildFold (generateViewSchema (getAllDatasetFields c))
        ((c.dataset.getD {}).views.getD []) hnodup vn, hvc]
    rfl
  · intro fname _ hdang
    exact getKey_displayProps (getAllDatasetFields c) vn vc fname hdang

theorem spec_C10_witness :
    ((((cfgC10.dataset.getD {}).views.getD []).map Prod.fst).Nodup ∧
      getKey ((cfgC10.dataset.getD {}).views.getD []) "overview"
        = some { fields := some ["price", "z"] }) ∧
    ∃ vs, getKey (generateDatasetSchema cfgC10).views "overview" = some vs ∧
      vs.transformationFields
        = ({ fields := some ["price", "z"] } : ViewConfig).fields.getD [] ∧
      ∀ fname,
        fname ∈ ({ fields := some ["price", "z"] } : ViewConfig).fields.getD [] →
        getKey (getAllDatasetFields cfgC10) fname = none →
        getKey vs.displayProperties fname = none :=
  ⟨⟨by decide, by decide⟩,
    spec_C10_view_fields_verbatim cfgC10 "overview"
      { fields := some ["price", "z"] } (by decide) (by decide)⟩

theorem spec_C3_witness :
    getKey (getAllDatasetFields cfgC3) "tags" = some dfTags ∧
    ∃ fs, getKey (generateDatasetSchema cfgC3).fieldsProperties "tags" = some fs ∧
      fs.type = (if dfTags.config.nullable = some false
        then SchemaType.single (inferType dfTags.config)
        else SchemaType.union [inferType dfTags.config, "null"]) ∧
      fs.items = (if inferType dfTags.config = "array"
        then some (strOrElse dfTags.config.itemType "string") else none) :=
  ⟨by decide, spec_C3_dataset_field_types cfgC3 "tags" dfTags (by decide)⟩
